import Mathlib

/-!
# nestsdm: lease renewal, capture supervisor and device listing

A shallow embedding of three pieces of `rspier/nestsdm`:

* `nestsdm.go`: `extend` and the polling loop `Extender`;
* `cmd/capture/capture.go`: the `for repeat { backoff.Retry(...) }` loop of `main`;
* `cmd/list/list.go`: the device loop of `main`.

Instants (`time.Time`) are integers counting nanoseconds since Go's zero time
(January 1, year 1, 00:00:00 UTC); `time.Duration` is an integer number of
nanoseconds.  Every instant the program handles is either the wall clock or
an RFC 3339 timestamp with a year in 0000..9999, so none of the 64-bit fields of
`time.Time` wraps around and unbounded integers are exact.
-/

namespace Nestsdm

/-! ## Time -/

/-- Go `time.Time` without a monotonic reading: nanoseconds since the zero time. -/
structure Time where
  ns : Int
  deriving DecidableEq, Repr

/-- Go `time.Duration`: a count of nanoseconds. -/
abbrev Duration := Int

def Millisecond : Duration := 1000000
def Second : Duration := 1000 * Millisecond
def Minute : Duration := 60 * Second

/-- The zero value `time.Time{}`. -/
def Time.zero : Time := ⟨0⟩

/-- Method `t.Add(d)`. -/
def Time.Add (t : Time) (d : Duration) : Time := ⟨t.ns + d⟩

/-- Method `t.After(u)`: reports whether `t` is strictly after `u`. -/
def Time.After (t u : Time) : Bool := decide (u.ns < t.ns)

/-- Method `t.Sub(u)`. -/
def Time.Sub (t u : Time) : Duration := t.ns - u.ns

/-! ## nestsdm.go: result types, `extend`, `Extender` -/

structure ResultStreamURLs where
  RTSPURL : String
  deriving DecidableEq, Repr

structure GenerateRtspStreamResults where
  StreamURLs : ResultStreamURLs
  StreamToken : String
  StreamExtensionToken : String
  ExpiresAt : Time
  deriving DecidableEq, Repr

structure ExtendRtspStreamResults where
  StreamToken : String
  StreamExtensionToken : String
  ExpiresAt : Time
  deriving DecidableEq, Repr

/-- Function `extend` (nestsdm.go 150-170).  The argument is what
`backoff.Retry` around `ExtendRTSPStream` left behind: `.error` when it gave up
(`err != nil`), `.ok res` when a call succeeded and stored `res`.  On failure
the function returns `time.Time{}, ""`. -/
def extend (retried : Except String ExtendRtspStreamResults) : Time × String :=
  match retried with
  | .error _ => (Time.zero, "")
  | .ok res => (res.ExpiresAt, res.StreamExtensionToken)

/-- The local variables `expire` and `set` of `Extender`. -/
structure Lease where
  expire : Time
  set : String
  deriving DecidableEq, Repr

/-- What the environment supplies to one pass of the `for` loop of `Extender`
once the `ctx.Done()` check has fallen through: the reading of `time.Now()` and
the outcome the retried extension call would have. -/
structure Tick where
  now : Time
  retried : Except String ExtendRtspStreamResults

/-- Whether the pass calls `extend` (nestsdm.go 186):
`time.Now().After(expire.Add(-1 * time.Minute))`. -/
def shouldExtend (l : Lease) (now : Time) : Bool :=
  now.After (l.expire.Add (-1 * Minute))

/-- Body of the loop of `Extender` (nestsdm.go 185-195): the lease after the
pass. -/
def ExtenderBody (l : Lease) (t : Tick) : Lease :=
  if shouldExtend l t.now then
    let (e, s) := extend t.retried
    -- successful renew
    if e.After l.expire then { expire := e, set := s } else l
  else l

/-- One scheduled pass of the loop: `none` when `ctx.Done()` has fired at the
`select`, otherwise the data of the pass. -/
abbrev Poll := Option Tick

/-- The loop of `Extender` (nestsdm.go 178-197) over a finite script of polls:
the successive leases held after each completed pass.  The loop ends at the
first poll that finds the context cancelled. -/
def ExtenderLoop : Lease → List Poll → List Lease
  | _, [] => []
  | _, none :: _ => []
  | l, some t :: ps => ExtenderBody l t :: ExtenderLoop (ExtenderBody l t) ps

/-- Function `Extender` (nestsdm.go 172-198): starts from the lease of the
negotiated stream. -/
def Extender (r : GenerateRtspStreamResults) (polls : List Poll) : List Lease :=
  ExtenderLoop { expire := r.ExpiresAt, set := r.StreamExtensionToken } polls

/-! ## github.com/cenkalti/backoff/v4 (the retry library `capture.go` imports)

The repository calls `backoff.NewExponentialBackOff()` and `backoff.Retry`.
Both belong to the imported library; they are embedded here from the library's
v4 code: `Retry` first calls `b.Reset()`, then runs the operation until it
returns `nil`, asking `b.NextBackOff()` after each error and sleeping for the
answer, or returning the error when the answer is `Stop`. -/

/-- The two fields of `ExponentialBackOff` that change after construction; the
others keep the defaults `NewExponentialBackOff` sets (`InitialInterval` 500ms,
`RandomizationFactor` 0.5, `Multiplier` 1.5, `MaxInterval` 60s,
`MaxElapsedTime` 15min). -/
structure ExponentialBackOff where
  currentInterval : Duration
  startTime : Time
  deriving DecidableEq, Repr

def DefaultInitialInterval : Duration := 500 * Millisecond
def DefaultMaxInterval : Duration := 60 * Second
def DefaultMaxElapsedTime : Duration := 15 * Minute

/-- Method `Reset`: `currentInterval = InitialInterval; startTime = Clock.Now()`. -/
def ExponentialBackOff.Reset (_b : ExponentialBackOff) (now : Time) : ExponentialBackOff :=
  { currentInterval := DefaultInitialInterval, startTime := now }

/-- Constructor `NewExponentialBackOff`: fills in the defaults and calls `Reset`. -/
def NewExponentialBackOff (now : Time) : ExponentialBackOff :=
  ExponentialBackOff.Reset { currentInterval := 0, startTime := Time.zero } now

/-- Method `incrementCurrentInterval`:
`if float64(cur) >= float64(MaxInterval)/Multiplier then cur = MaxInterval
else cur = Duration(float64(cur) * Multiplier)`.  With `Multiplier = 1.5` and
intervals between 0 and 60s every float here is exact, `60s / 1.5` is `40s`,
and the conversion truncates `cur * 3 / 2`. -/
def ExponentialBackOff.incrementCurrentInterval (b : ExponentialBackOff) : ExponentialBackOff :=
  if b.currentInterval ≥ 40 * Second then { b with currentInterval := DefaultMaxInterval }
  else { b with currentInterval := b.currentInterval * 3 / 2 }

/-- Method `NextBackOff`.  `now` is the clock reading of `GetElapsedTime` and
`randomized` the value of
`getRandomValueFromInterval(RandomizationFactor, rand.Float64(), currentInterval)`,
a random draw from about `[cur/2, 3*cur/2]` that the environment supplies.
The answer `none` stands for `Stop`. -/
def ExponentialBackOff.NextBackOff (b : ExponentialBackOff) (now : Time) (randomized : Duration) :
    Option Duration × ExponentialBackOff :=
  let elapsed := now.Sub b.startTime
  let next := randomized
  let b1 := b.incrementCurrentInterval
  if elapsed + next > DefaultMaxElapsedTime then (none, b1) else (some next, b1)

/-! ## cmd/capture/capture.go: the supervisor loop of `main` -/

/-- How one run of the closure handed to `backoff.Retry` (capture.go 84-104)
ends: `GenerateRTSPStream` failed, `ffmpeg` returned an error, or `ffmpeg`
returned `nil`. -/
inductive Outcome where
  | negotiationError
  | ffmpegError
  | success
  deriving DecidableEq, Repr

/-- What the environment decides about one run of the closure: its outcome, the
wall time it takes (nanoseconds), and the random draw `NextBackOff` would make
if it is consulted afterwards. -/
structure Attempt where
  outcome : Outcome
  took : Nat
  randomized : Duration
  deriving DecidableEq, Repr

/-- Observable actions of the supervisor, in program order. -/
inductive Event where
  /-- The call `b.Reset()` at the entry of `backoff.Retry`. -/
  | reset
  /-- The call `nestsdm.GenerateRTSPStream`, with whether it returned no error. -/
  | negotiate (ok : Bool)
  /-- The statement `go nestsdm.Extender(cctx, ...)` under a fresh `cctx`. -/
  | startExtender
  /-- The call `ffmpeg(...)` has returned, with whether it returned no error. -/
  | ffmpeg (ok : Bool)
  /-- The deferred `cxl()` of the closure. -/
  | cancel
  /-- The call `b.NextBackOff()`: the `currentInterval` it found and its answer
  (`none` is `Stop`). -/
  | nextBackOff (interval : Duration) (answer : Option Duration)
  /-- The timer wait of `backoff.Retry` before it runs the operation again. -/
  | sleep (d : Duration)
  deriving DecidableEq, Repr

/-- The closure passed to `backoff.Retry` (capture.go 84-104).  Returns the
actions, whether the closure returned an error, and the value of the variable
`repeat` afterwards. -/
def operation (once : Bool) (a : Attempt) (repeat_ : Bool) : List Event × Bool × Bool :=
  match a.outcome with
  | .negotiationError => ([.negotiate false], true, repeat_)
  | .ffmpegError => ([.negotiate true, .startExtender, .ffmpeg false, .cancel], true, repeat_)
  | .success => ([.negotiate true, .startExtender, .ffmpeg true, .cancel], false, !once)

/-- Where the supervisor stands between two runs of the closure. -/
inductive Pc where
  /-- At `for repeat` (capture.go 82): the next run of the closure is the first
  of a new `backoff.Retry` call. -/
  | loopHead
  /-- Inside the loop of `backoff.Retry`, the timer has fired. -/
  | inRetry
  deriving DecidableEq, Repr

/-- State of the supervisor: the program point, the variable `repeat`, the
policy `b`, and the wall clock. -/
structure Supervisor where
  pc : Pc
  repeat_ : Bool
  b : ExponentialBackOff
  clock : Time
  deriving DecidableEq, Repr

/-- State at capture.go 80-82: `b := backoff.NewExponentialBackOff()`,
`repeat := true`. -/
def Supervisor.init (t0 : Time) : Supervisor :=
  { pc := .loopHead, repeat_ := true, b := NewExponentialBackOff t0, clock := t0 }

/-- The test of `for repeat` fails: `main` returns. -/
def Supervisor.halted (s : Supervisor) : Bool :=
  s.pc == .loopHead && !s.repeat_

/-- Entry of one run of the closure: at `for repeat` a new call of
`backoff.Retry` begins with `b.Reset()`; inside the loop of `Retry` the policy is
left as it is.  Returns the policy and the action taken. -/
def retryEntry (s : Supervisor) : ExponentialBackOff × List Event :=
  match s.pc with
  | .loopHead => (s.b.Reset s.clock, [.reset])
  | .inRetry => (s.b, [])

/-- One run of the closure from a state that has not halted, with the code of
`backoff.Retry` around it: the reset at the entry of `Retry`, the closure, and
after an error the consultation of the policy and, unless the answer is `Stop`,
the timer wait.  When `Retry` returns (the closure returned `nil`, or the
policy said `Stop`) control is back at `for repeat`. -/
def step (once : Bool) (s : Supervisor) (a : Attempt) : Supervisor × List Event :=
  let b0 := (retryEntry s).1
  let (evs, failed, rep) := operation once a s.repeat_
  let clock1 := s.clock.Add a.took
  if failed then
    match b0.NextBackOff clock1 a.randomized with
    | (none, b1) =>
      ({ pc := .loopHead, repeat_ := rep, b := b1, clock := clock1 },
        (retryEntry s).2 ++ evs ++ [.nextBackOff b0.currentInterval none])
    | (some d, b1) =>
      ({ pc := .inRetry, repeat_ := rep, b := b1, clock := clock1.Add d },
        (retryEntry s).2 ++ evs ++ [.nextBackOff b0.currentInterval (some d), .sleep d])
  else
    ({ pc := .loopHead, repeat_ := rep, b := b0, clock := clock1 }, (retryEntry s).2 ++ evs)

/-- State of the supervisor after the scripted attempts (or at the point where
`main` returned). -/
def final (once : Bool) : Supervisor → List Attempt → Supervisor
  | s, [] => s
  | s, a :: env => if s.halted then s else final once (step once s a).1 env

/-- Actions of the supervisor over the scripted attempts. -/
def trace (once : Bool) : Supervisor → List Attempt → List Event
  | _, [] => []
  | s, a :: env =>
    if s.halted then [] else (step once s a).2 ++ trace once (step once s a).1 env

namespace Capture

/-- The loop of `main` (capture.go 80-105) started at clock reading `t0`, with
`*once = once`: the state reached and the actions taken. -/
def main (once : Bool) (t0 : Time) (env : List Attempt) : Supervisor × List Event :=
  (final once (Supervisor.init t0) env, trace once (Supervisor.init t0) env)

end Capture

/-- Whether an action is a call of `GenerateRTSPStream`. -/
def Event.isNegotiate : Event → Bool
  | .negotiate _ => true
  | _ => false

/-- The `currentInterval` found by the first call of `NextBackOff` in a list of
actions, if there is one. -/
def firstInterval : List Event → Option Duration
  | [] => none
  | .nextBackOff cur _ :: _ => some cur
  | _ :: es => firstInterval es

/-- What the actions right after an action `e` look like, `post` being
everything that follows `e` in a trace; a trace that stops short is one whose
script of attempts ran out. -/
def Follows (e : Event) (post : List Event) : Prop :=
  match e with
  | .reset => ∃ ok r, post = .negotiate ok :: r
  | .negotiate false => ∃ cur ans r, post = .nextBackOff cur ans :: r
  | .negotiate true => ∃ ok r, post = .startExtender :: .ffmpeg ok :: .cancel :: r
  | .startExtender => ∃ ok r, post = .ffmpeg ok :: .cancel :: r
  | .ffmpeg true => post = [.cancel] ∨ ∃ ok r, post = .cancel :: .reset :: .negotiate ok :: r
  | .ffmpeg false => ∃ cur ans r, post = .cancel :: .nextBackOff cur ans :: r
  | .cancel => post = [] ∨ (∃ ok r, post = .reset :: .negotiate ok :: r) ∨
      ∃ cur ans r, post = .nextBackOff cur ans :: r
  | .nextBackOff _ (some d) =>
      ∃ r, post = .sleep d :: r ∧ (r = [] ∨ ∃ ok r1, r = .negotiate ok :: r1)
  | .nextBackOff _ none => post = [] ∨ ∃ ok r, post = .reset :: .negotiate ok :: r
  | .sleep _ => post = [] ∨ ∃ ok r, post = .negotiate ok :: r

/-! ## cmd/list/list.go: the device loop of `main` -/

structure InfoTrait where
  CustomName : String
  deriving DecidableEq, Repr

structure VideoResolution where
  Width : Int
  Height : Int
  deriving DecidableEq, Repr

structure CameraLiveStreamTrait where
  MaxVideoResolution : VideoResolution
  VideoCodecs : List String
  AudioCodecs : List String
  deriving DecidableEq, Repr

structure CameraImageTrait where
  MaxVideoResolution : VideoResolution
  deriving DecidableEq, Repr

/-- Struct `Traits` (nestsdm.go 60-64): the two camera traits are pointers,
`nil` (here `none`) when the JSON object lacks the key. -/
structure Traits where
  Info : InfoTrait
  CameraLiveStream : Option CameraLiveStreamTrait
  CameraImage : Option CameraImageTrait
  deriving DecidableEq, Repr

/-- The field of `GoogleHomeEnterpriseSdmV1ParentRelation` the tool reads. -/
structure ParentRelation where
  DisplayName : String
  deriving DecidableEq, Repr

/-- A listed device as the loop sees it: its name, its parent relations, and
what `json.Unmarshal` makes of its traits (`none` when decoding fails). -/
structure Device where
  Name : String
  ParentRelations : List ParentRelation
  Traits : Option Traits
  deriving DecidableEq, Repr

/-- How the tool ends. -/
inductive Exit where
  /-- The loop ran to its end and `main` returned. -/
  | returned
  /-- A call of `log.Fatalf` ended the process (list.go 71). -/
  | fatal
  /-- A run-time panic (nil pointer dereference) ended the process. -/
  | panicked
  deriving DecidableEq, Repr

/-- The room of a device (list.go 79-85): the first non-empty display name
among its parents, or the empty string. -/
def room : List ParentRelation → String
  | [] => ""
  | p :: ps => if p.DisplayName ≠ "" then p.DisplayName else room ps

/-- The line printed for a camera (list.go 87-92). -/
def line (d : Device) (ds : Traits) : String :=
  let cn := if ds.Info.CustomName ≠ "" then "(" ++ ds.Info.CustomName ++ ")" else ""
  room d.ParentRelations ++ cn ++ ": " ++ d.Name ++ "\n"

/-- The loop over the devices (list.go 62-93): the lines printed so far and how
the loop ended.  `ds.CameraLiveStream.VideoCodecs` dereferences the pointer
`ds.CameraLiveStream`; when it is `nil` the program panics. -/
def devicesLoop : List Device → List String × Exit
  | [] => ([], .returned)
  | d :: rest =>
    match d.Traits with
    | none => ([], .fatal)
    | some ds =>
      match ds.CameraLiveStream with
      | none => ([], .panicked)
      | some cls =>
        if cls.VideoCodecs.length = 0 then devicesLoop rest
        else ((line d ds :: (devicesLoop rest).1), (devicesLoop rest).2)

namespace ListCmd

/-- The device loop of `main` in list.go over the devices the listing returned. -/
def main (devs : List Device) : List String × Exit :=
  devicesLoop devs

end ListCmd

/-! ## Example inputs -/

/-- An instant used in the examples: 2021-06-01T00:00:00Z, in nanoseconds since
the zero time. -/
def exampleT : Time := ⟨63758102400 * Second⟩

/-- A successful extension result: the lease is renewed to T+600s. -/
def renewal : ExtendRtspStreamResults :=
  { StreamToken := "s", StreamExtensionToken := "tok2",
    ExpiresAt := exampleT.Add (600 * Second) }

/-- A script for the supervisor: `ffmpeg` streams for 16 minutes and then exits
with an error; the next attempt succeeds after an hour. -/
def lateFailure : List Attempt :=
  [{ outcome := .ffmpegError, took := 960000000000, randomized := 400 * Millisecond },
   { outcome := .success, took := 3600000000000, randomized := 0 }]

/-- A script for the supervisor: two failed negotiations of one second each, then
an hour of successful streaming. -/
def streakThenSuccess : List Attempt :=
  [{ outcome := .negotiationError, took := 1000000000, randomized := 400 * Millisecond },
   { outcome := .negotiationError, took := 1000000000, randomized := 700 * Millisecond },
   { outcome := .success, took := 3600000000000, randomized := 0 }]

/-- A failed negotiation of one second. -/
def laterFailure : Attempt :=
  { outcome := .negotiationError, took := 1000000000, randomized := 300 * Millisecond }

/-- A thermostat: its traits decode, and carry no `CameraLiveStream` trait. -/
def thermostat : Device :=
  { Name := "enterprises/p/devices/thermostat",
    ParentRelations := [{ DisplayName := "Hall" }],
    Traits := some { Info := { CustomName := "" }, CameraLiveStream := none,
                     CameraImage := none } }

/-- A camera with one video codec and a custom name. -/
def camera : Device :=
  { Name := "enterprises/p/devices/camera",
    ParentRelations := [{ DisplayName := "" }, { DisplayName := "Porch" }],
    Traits := some { Info := { CustomName := "Door" },
                     CameraLiveStream := some { MaxVideoResolution := ⟨640, 480⟩,
                                                VideoCodecs := ["H264"],
                                                AudioCodecs := ["AAC"] },
                     CameraImage := none } }

/-! ## Theorems: the lease renewer -/

theorem shouldExtend_iff (l : Lease) (now : Time) :
    shouldExtend l now = true ↔ l.expire.ns - Minute < now.ns := by
  simp only [shouldExtend, Time.After, Time.Add, decide_eq_true_eq]
  constructor <;> intro h <;> linarith

theorem extend_error (msg : String) : extend (.error msg) = (Time.zero, "") := rfl

theorem ExtenderBody_expire_le (l : Lease) (t : Tick) :
    l.expire.ns ≤ (ExtenderBody l t).expire.ns := by
  unfold ExtenderBody
  split
  · split
    rename_i e s _
    by_cases h : e.After l.expire = true
    · simp only [h, if_true]
      simp only [Time.After, decide_eq_true_eq] at h
      exact le_of_lt h
    · simp [h]
  · exact le_refl _

theorem ExtenderLoop_chain (l : Lease) (polls : List Poll) :
    List.Chain (fun a b => a.expire.ns ≤ b.expire.ns) l (ExtenderLoop l polls) := by
  induction polls generalizing l with
  | nil => exact List.Chain.nil
  | cons p ps ih =>
    cases p with
    | none => exact List.Chain.nil
    | some t => exact List.Chain.cons (ExtenderBody_expire_le l t) (ih _)

theorem ExtenderBody_idle (l : Lease) (t : Tick)
    (h : ¬ l.expire.ns - Minute < t.now.ns) : ExtenderBody l t = l := by
  have hs : shouldExtend l t.now = false := by
    rw [Bool.eq_false_iff]
    exact fun hc => h ((shouldExtend_iff l t.now).1 hc)
  simp [ExtenderBody, hs]

theorem ExtenderBody_calls (l : Lease) (t : Tick)
    (h : l.expire.ns - Minute < t.now.ns) :
    ExtenderBody l t =
      if (extend t.retried).1.After l.expire then
        { expire := (extend t.retried).1, set := (extend t.retried).2 }
      else l := by
  have hs : shouldExtend l t.now = true := (shouldExtend_iff l t.now).2 h
  simp [ExtenderBody, hs]

theorem ExtenderBody_renews_iff (l : Lease) (now : Time) (res : ExtendRtspStreamResults)
    (hres : l.expire.ns < res.ExpiresAt.ns) :
    ExtenderBody l { now := now, retried := .ok res } ≠ l ↔ l.expire.ns - Minute < now.ns := by
  constructor
  · intro hne
    by_contra hc
    exact hne (ExtenderBody_idle l _ hc)
  · intro h hEq
    rw [ExtenderBody_calls l _ h] at hEq
    have ha : res.ExpiresAt.After l.expire = true := by
      simp [Time.After, hres]
    simp only [extend, ha, if_true] at hEq
    have he : res.ExpiresAt.ns = l.expire.ns := by
      have := congrArg (fun x => x.expire.ns) hEq
      simpa using this
    omega

/-- C1 (as stated, refuted): the lease expires at T+300s and the extension call,
if made, would succeed with a new expiry of T+600s.  The pass of the loop of
`Extender` made at exactly T+240s, which is `expire - 1 minute`, leaves the
lease as it was: no extension call is made, although `now >= expire - 1 minute`
holds. -/
theorem C1_no_call_at_boundary :
    ¬ (ExtenderBody { expire := exampleT.Add (300 * Second), set := "tok" }
          { now := exampleT.Add (240 * Second),
            retried := .ok { StreamToken := "s", StreamExtensionToken := "tok2",
                             ExpiresAt := exampleT.Add (600 * Second) } } ≠
          { expire := exampleT.Add (300 * Second), set := "tok" } ↔
        (exampleT.Add (300 * Second)).ns - Minute ≤ (exampleT.Add (240 * Second)).ns) := by
  decide

/-- C1 (amended): a pass of the loop of `Extender` makes the extension call if
and only if the clock is strictly after `expire - 1 minute`.  On `ExtenderBody`:
a pass at or before `expire - 1 minute` leaves the lease as it was whatever the
call would have returned; a later pass applies the outcome of `extend`; and for
a call that would succeed with a later expiry the lease changes exactly when
`now > expire - 1 minute`.  With a lease expiring at T+300s and a renewal to
T+600s on offer, `Extender` keeps T+300s at T+239s and at T+240s and holds
T+600s after the pass one nanosecond past T+240s. -/
theorem C1_renewal_trigger :
    (∀ (l : Lease) (t : Tick), ¬ l.expire.ns - Minute < t.now.ns → ExtenderBody l t = l) ∧
    (∀ (l : Lease) (t : Tick), l.expire.ns - Minute < t.now.ns →
      ExtenderBody l t =
        if (extend t.retried).1.After l.expire then
          { expire := (extend t.retried).1, set := (extend t.retried).2 }
        else l) ∧
    (∀ (l : Lease) (now : Time) (res : ExtendRtspStreamResults),
      l.expire.ns < res.ExpiresAt.ns →
      (ExtenderBody l { now := now, retried := .ok res } ≠ l ↔
        l.expire.ns - Minute < now.ns)) ∧
    Extender
        { StreamURLs := { RTSPURL := "rtsps://example/stream" }, StreamToken := "s",
          StreamExtensionToken := "tok", ExpiresAt := exampleT.Add (300 * Second) }
        [some { now := exampleT.Add (239 * Second), retried := .ok renewal },
         some { now := exampleT.Add (240 * Second), retried := .ok renewal },
         some { now := exampleT.Add (240 * Second + 1), retried := .ok renewal }] =
      [{ expire := exampleT.Add (300 * Second), set := "tok" },
       { expire := exampleT.Add (300 * Second), set := "tok" },
       { expire := exampleT.Add (600 * Second), set := "tok2" }] :=
  ⟨ExtenderBody_idle, ExtenderBody_calls, ExtenderBody_renews_iff, by decide⟩

theorem C1_renewal_trigger_witness :
    (exampleT.Add (300 * Second)).ns < renewal.ExpiresAt.ns ∧
    (ExtenderBody { expire := exampleT.Add (300 * Second), set := "tok" }
          { now := exampleT.Add (240 * Second + 1), retried := .ok renewal } ≠
        { expire := exampleT.Add (300 * Second), set := "tok" } ↔
      (exampleT.Add (300 * Second)).ns - Minute < (exampleT.Add (240 * Second + 1)).ns) :=
  ⟨by decide,
   C1_renewal_trigger.2.2.1 { expire := exampleT.Add (300 * Second), set := "tok" }
      (exampleT.Add (240 * Second + 1)) renewal (by decide)⟩

/-- C2 (the code at the failing input): the lease expires at
0000-12-31T23:59:59Z, one second before Go's zero time; the extension fails, so
`extend` returns `time.Time{}, ""`, which is after `expire`, and the pass
overwrites the expiry with the zero time and the token with the empty
string. -/
theorem C2_failed_renewal_overwrites :
    ExtenderBody { expire := ⟨-Second⟩, set := "tok" }
        { now := exampleT, retried := .error "calling ExecuteCommand" } =
      { expire := Time.zero, set := "" } := by
  decide

/-- A failed renewal leaves a lease alone when the lease does not expire before
the zero time. -/
theorem ExtenderBody_failed (l : Lease) (now : Time) (msg : String)
    (h : 0 ≤ l.expire.ns) :
    ExtenderBody l { now := now, retried := .error msg } = l := by
  have h1 : Time.zero.After l.expire = false := by
    simp only [Time.After, Time.zero, decide_eq_false_iff_not, not_lt]
    exact h
  unfold ExtenderBody
  split
  · simp only [extend_error, h1]
    rfl
  · rfl

/-- C3: over every script of polls, whatever the clock readings and whatever
each extension call returns, the expiry held after each completed pass of the
loop of `Extender` is at least the expiry held before it. -/
theorem C3_expiry_monotone (r : GenerateRtspStreamResults) (polls : List Poll) :
    List.Chain (fun a b => a.expire.ns ≤ b.expire.ns)
      { expire := r.ExpiresAt, set := r.StreamExtensionToken } (Extender r polls) :=
  ExtenderLoop_chain _ polls

/-- C4: on a pass that calls `extend` and gets a successful result
`(newExpiry, newToken)`, the lease becomes exactly that pair when `newExpiry`
is strictly later than `expire`, and stays exactly as it was otherwise. -/
theorem C4_stale_response_guard (l : Lease) (now : Time) (res : ExtendRtspStreamResults)
    (hcall : shouldExtend l now = true) :
    ExtenderBody l { now := now, retried := .ok res } =
      if l.expire.ns < res.ExpiresAt.ns then
        { expire := res.ExpiresAt, set := res.StreamExtensionToken }
      else l := by
  simp [ExtenderBody, hcall, extend, Time.After]

theorem C4_stale_response_guard_witness :
    shouldExtend { expire := exampleT.Add (300 * Second), set := "tok" }
        (exampleT.Add (250 * Second)) = true ∧
    ExtenderBody { expire := exampleT.Add (300 * Second), set := "tok" }
        { now := exampleT.Add (250 * Second),
          retried := .ok { StreamToken := "s", StreamExtensionToken := "tok2",
                           ExpiresAt := exampleT.Add (600 * Second) } } =
      if (exampleT.Add (300 * Second)).ns < (exampleT.Add (600 * Second)).ns then
        { expire := exampleT.Add (600 * Second), set := "tok2" }
      else { expire := exampleT.Add (300 * Second), set := "tok" } :=
  ⟨by decide, C4_stale_response_guard _ _ _ (by decide)⟩

/-! ## Theorems: the capture supervisor -/

theorem trace_of_halted (once : Bool) (s : Supervisor) (env : List Attempt)
    (h : s.halted = true) : trace once s env = [] := by
  cases env <;> simp [trace, h]

theorem final_of_halted (once : Bool) (s : Supervisor) (env : List Attempt)
    (h : s.halted = true) : final once s env = s := by
  cases env <;> simp [final, h]

theorem trace_head_loopHead (once : Bool) (s : Supervisor) (env : List Attempt)
    (hpc : s.pc = .loopHead) :
    trace once s env = [] ∨ ∃ ok rest, trace once s env = .reset :: .negotiate ok :: rest := by
  cases env with
  | nil => exact Or.inl rfl
  | cons a env =>
    by_cases hh : s.halted = true
    · left; simp [trace, hh]
    · right
      rcases hn : (retryEntry s).1.NextBackOff (s.clock.Add a.took) a.randomized with ⟨_ | d, b1⟩ <;>
        cases ho : a.outcome <;>
        simp [trace, hh, step, operation, ho, hn] <;>
        simp [retryEntry, hpc]

theorem trace_head_inRetry (once : Bool) (s : Supervisor) (env : List Attempt)
    (hpc : s.pc = .inRetry) :
    trace once s env = [] ∨ ∃ ok rest, trace once s env = .negotiate ok :: rest := by
  cases env with
  | nil => exact Or.inl rfl
  | cons a env =>
    have hh : s.halted = false := by simp [Supervisor.halted, hpc]
    right
    rcases hn : (retryEntry s).1.NextBackOff (s.clock.Add a.took) a.randomized with ⟨_ | d, b1⟩ <;>
      cases ho : a.outcome <;>
      simp [trace, hh, step, operation, ho, hn] <;>
      simp [retryEntry, hpc]

set_option maxHeartbeats 4000000 in
theorem suffix_follows (once : Bool) (s : Supervisor) (env : List Attempt)
    (e : Event) (post : List Event) (h : (e :: post) <:+ trace once s env) :
    Follows e post := by
  induction env generalizing s with
  | nil => simp [trace] at h
  | cons a env ih =>
    by_cases hh : s.halted = true
    · simp [trace, hh] at h
    · have hT1 := trace_head_loopHead once (step once s a).1 env
      have hT2 := trace_head_inRetry once (step once s a).1 env
      have ihT := ih (step once s a).1
      rcases hn : (retryEntry s).1.NextBackOff (s.clock.Add a.took) a.randomized with ⟨_ | d, b1⟩ <;>
        cases ho : a.outcome <;>
        simp [trace, hh, step, operation, ho, hn] at h hT1 hT2 ihT <;>
        cases hpc : s.pc <;>
        simp [retryEntry, hpc, List.suffix_cons_iff] at h hT1 hT2 ihT
      all_goals
        casesm* _ ∨ _, _ ∧ _, ∃ _, _
      all_goals
        first
        | exact ihT (by assumption)
        | (subst_vars; simp_all [Follows])

theorem firstInterval_loopHead (once : Bool) (s : Supervisor) (env : List Attempt)
    (hpc : s.pc = .loopHead) :
    firstInterval (trace once s env) = none ∨
      firstInterval (trace once s env) = some DefaultInitialInterval := by
  induction env generalizing s with
  | nil => left; rfl
  | cons a env ih =>
    by_cases hh : s.halted = true
    · left; simp [trace, hh, firstInterval]
    · have ihT := ih (step once s a).1
      rcases hn : (retryEntry s).1.NextBackOff (s.clock.Add a.took) a.randomized with ⟨_ | d, b1⟩ <;>
        cases ho : a.outcome <;>
        simp [trace, hh, step, operation, ho, hn] at ihT ⊢ <;>
        simp [retryEntry, hpc, firstInterval, ExponentialBackOff.Reset] at ihT ⊢
      all_goals exact ihT

set_option maxHeartbeats 4000000 in
theorem suffix_success_interval (once : Bool) (s : Supervisor) (env : List Attempt)
    (post : List Event) (h : (Event.ffmpeg true :: post) <:+ trace once s env) :
    firstInterval post = none ∨ firstInterval post = some DefaultInitialInterval := by
  induction env generalizing s with
  | nil => simp [trace] at h
  | cons a env ih =>
    by_cases hh : s.halted = true
    · simp [trace, hh] at h
    · have hT := firstInterval_loopHead once (step once s a).1 env
      have ihT := ih (step once s a).1
      rcases hn : (retryEntry s).1.NextBackOff (s.clock.Add a.took) a.randomized with ⟨_ | d, b1⟩ <;>
        cases ho : a.outcome <;>
        simp [trace, hh, step, operation, ho, hn] at h hT ihT <;>
        cases hpc : s.pc <;>
        simp [retryEntry, hpc, List.suffix_cons_iff] at h hT ihT
      all_goals
        first
        | exact ihT h
        | (rcases h with h | h
           · subst h
             simpa [firstInterval] using hT
           · exact ihT h)

theorem not_halted_of_repeat (s : Supervisor) (h : s.repeat_ = true) : s.halted = false := by
  simp [Supervisor.halted, h]

theorem step_failure_repeat (once : Bool) (s : Supervisor) (a : Attempt)
    (ho : a.outcome ≠ .success) : (step once s a).1.repeat_ = s.repeat_ := by
  rcases hn : (retryEntry s).1.NextBackOff (s.clock.Add a.took) a.randomized with ⟨_ | d, b1⟩ <;>
    cases h : a.outcome <;> simp [step, operation, h, hn] <;> exact absurd h ho

theorem step_success (once : Bool) (s : Supervisor) (a : Attempt)
    (ho : a.outcome = .success) :
    step once s a =
      ({ pc := .loopHead, repeat_ := !once, b := (retryEntry s).1, clock := s.clock.Add a.took },
        (retryEntry s).2 ++ [.negotiate true, .startExtender, .ffmpeg true, .cancel]) := by
  simp [step, operation, ho]

theorem step_countP_negotiate (once : Bool) (s : Supervisor) (a : Attempt) :
    (step once s a).2.countP Event.isNegotiate = 1 := by
  rcases hn : (retryEntry s).1.NextBackOff (s.clock.Add a.took) a.randomized with ⟨_ | d, b1⟩ <;>
    cases ho : a.outcome <;>
    simp [step, operation, ho, hn] <;>
    cases hpc : s.pc <;>
    simp [retryEntry, hpc, List.countP_cons, Event.isNegotiate]

theorem final_once_halted_iff (s : Supervisor) (env : List Attempt) (hr : s.repeat_ = true) :
    (final true s env).halted = true ↔ ∃ a ∈ env, a.outcome = .success := by
  induction env generalizing s with
  | nil => simp [final, not_halted_of_repeat s hr]
  | cons a env ih =>
    have hh := not_halted_of_repeat s hr
    by_cases ho : a.outcome = .success
    · have hs : (step true s a).1.halted = true := by
        simp [step_success true s a ho, Supervisor.halted]
      simp [final, hh, final_of_halted true _ env hs, hs, ho]
    · have hr1 : (step true s a).1.repeat_ = true := by
        rw [step_failure_repeat true s a ho]; exact hr
      simp [final, hh, ih _ hr1, ho]

theorem suffix_once_success (s : Supervisor) (env : List Attempt) (post : List Event)
    (h : (Event.ffmpeg true :: post) <:+ trace true s env) : post = [.cancel] := by
  induction env generalizing s with
  | nil => simp [trace] at h
  | cons a env ih =>
    by_cases hh : s.halted = true
    · simp [trace, hh] at h
    · have ihT := ih (step true s a).1
      have hT := trace_of_halted true (step true s a).1 env
      rcases hn : (retryEntry s).1.NextBackOff (s.clock.Add a.took) a.randomized with ⟨_ | d, b1⟩ <;>
        cases ho : a.outcome <;>
        simp [trace, hh, step, operation, ho, hn] at h ihT <;>
        simp [step, operation, ho, hn, Supervisor.halted] at hT <;>
        cases hpc : s.pc <;>
        simp [retryEntry, hpc, List.suffix_cons_iff] at h hT ihT
      all_goals
        first
        | exact ihT h
        | (rcases h with h | h
           · rw [h, hT]
           · exact ihT h)

theorem countP_once (s : Supervisor) (env : List Attempt) (hr : s.repeat_ = true) :
    (trace true s env).countP Event.isNegotiate =
      min env.length ((env.takeWhile (fun a => decide (a.outcome ≠ .success))).length + 1) := by
  induction env generalizing s with
  | nil => simp [trace]
  | cons a env ih =>
    have hh := not_halted_of_repeat s hr
    by_cases ho : a.outcome = .success
    · have hs : (step true s a).1.halted = true := by
        simp [step_success true s a ho, Supervisor.halted]
      simp [trace, hh, trace_of_halted true _ env hs, step_countP_negotiate, ho]
    · have hr1 : (step true s a).1.repeat_ = true := by
        rw [step_failure_repeat true s a ho]; exact hr
      simp [trace, hh, ih _ hr1, step_countP_negotiate, ho, List.takeWhile_cons]
      omega

theorem step_forever_repeat (s : Supervisor) (a : Attempt) (hr : s.repeat_ = true) :
    (step false s a).1.repeat_ = true := by
  by_cases ho : a.outcome = .success
  · simp [step_success false s a ho]
  · rw [step_failure_repeat false s a ho]; exact hr

theorem final_forever_repeat (s : Supervisor) (env : List Attempt) (hr : s.repeat_ = true) :
    (final false s env).repeat_ = true := by
  induction env generalizing s with
  | nil => simpa [final] using hr
  | cons a env ih =>
    simp [final, not_halted_of_repeat s hr, ih _ (step_forever_repeat s a hr)]

theorem countP_forever (s : Supervisor) (env : List Attempt) (hr : s.repeat_ = true) :
    (trace false s env).countP Event.isNegotiate = env.length := by
  induction env generalizing s with
  | nil => simp [trace]
  | cons a env ih =>
    simp [trace, not_halted_of_repeat s hr, ih _ (step_forever_repeat s a hr),
      step_countP_negotiate]
    omega

theorem before_startExtender (e : Event) (post : List Event)
    (h : Follows e (.startExtender :: post)) : e = .negotiate true := by
  cases e with
  | negotiate ok => cases ok <;> simp_all [Follows]
  | ffmpeg ok => cases ok <;> simp_all [Follows]
  | nextBackOff cur ans => cases ans <;> simp_all [Follows]
  | _ => simp_all [Follows]

set_option maxHeartbeats 4000000 in
theorem scopes_closed_before_negotiate (once : Bool) (s : Supervisor) (env : List Attempt)
    (pre post : List Event) (ok : Bool)
    (h : trace once s env = pre ++ .negotiate ok :: post) :
    pre.count .startExtender = pre.count .cancel := by
  induction env generalizing s pre with
  | nil => simp [trace] at h
  | cons a env ih =>
    by_cases hh : s.halted = true
    · simp [trace, hh] at h
    · have ihT := ih (step once s a).1
      rcases hn : (retryEntry s).1.NextBackOff (s.clock.Add a.took) a.randomized with ⟨_ | d, b1⟩ <;>
        cases ho : a.outcome <;>
        simp [trace, hh, step, operation, ho, hn] at h ihT <;>
        cases hpc : s.pc <;>
        simp [retryEntry, hpc, List.cons_eq_append_iff] at h ihT
      all_goals
        casesm* _ ∨ _, _ ∧ _, ∃ _, _
      all_goals
        first
        | (have hc := ihT _ (by assumption)
           subst_vars
           simp [List.count_cons, hc])
        | (subst_vars
           simp [List.count_cons])

theorem main_trace_head (once : Bool) (t0 : Time) (env : List Attempt) :
    (Capture.main once t0 env).2 = [] ∨
      ∃ ok rest, (Capture.main once t0 env).2 = .reset :: .negotiate ok :: rest :=
  trace_head_loopHead once (Supervisor.init t0) env rfl

/-- C5: with `once = true`, over every script of attempts, `main` has returned
if and only if some attempt of the script ended with `ffmpeg` succeeding; after
that return of `ffmpeg` only the deferred `cxl()` happens; and the number of
negotiation calls is the number of scripted attempts up to and including the
first success, so every failed attempt before it was followed by another
attempt. -/
theorem C5_stop_on_once (t0 : Time) (env : List Attempt) :
    ((Capture.main true t0 env).1.halted = true ↔ ∃ a ∈ env, a.outcome = .success) ∧
    (∀ pre post, (Capture.main true t0 env).2 = pre ++ .ffmpeg true :: post →
      post = [.cancel]) ∧
    (Capture.main true t0 env).2.countP Event.isNegotiate =
      min env.length ((env.takeWhile (fun a => decide (a.outcome ≠ .success))).length + 1) :=
  ⟨final_once_halted_iff _ env rfl,
   fun pre post h => suffix_once_success _ env post ⟨pre, h.symm⟩,
   countP_once _ env rfl⟩

theorem C5_stop_on_once_witness :
    (Capture.main true exampleT (laterFailure :: streakThenSuccess ++ [laterFailure])).2 =
        [.reset, .negotiate false, .nextBackOff (500 * Millisecond) (some (300 * Millisecond)),
          .sleep (300 * Millisecond), .negotiate false,
          .nextBackOff (750 * Millisecond) (some (400 * Millisecond)),
          .sleep (400 * Millisecond), .negotiate false,
          .nextBackOff (1125 * Millisecond) (some (700 * Millisecond)),
          .sleep (700 * Millisecond), .negotiate true, .startExtender] ++
          .ffmpeg true :: [.cancel] ∧
      [Event.cancel] = [.cancel] :=
  ⟨by decide,
   (C5_stop_on_once exampleT (laterFailure :: streakThenSuccess ++ [laterFailure])).2.1
      [.reset, .negotiate false, .nextBackOff (500 * Millisecond) (some (300 * Millisecond)),
        .sleep (300 * Millisecond), .negotiate false,
        .nextBackOff (750 * Millisecond) (some (400 * Millisecond)),
        .sleep (400 * Millisecond), .negotiate false,
        .nextBackOff (1125 * Millisecond) (some (700 * Millisecond)),
        .sleep (700 * Millisecond), .negotiate true, .startExtender]
      [.cancel] (by decide)⟩

theorem NextBackOff_answer (b : ExponentialBackOff) (now : Time) (rnd : Duration) :
    (b.NextBackOff now rnd).1 =
      if now.ns - b.startTime.ns + rnd > DefaultMaxElapsedTime then none else some rnd := by
  simp only [ExponentialBackOff.NextBackOff, Time.Sub]
  by_cases h : now.ns - b.startTime.ns + rnd > DefaultMaxElapsedTime <;> simp [h]

/-- C6 (as stated, refuted): `ffmpeg` fails after 16 minutes of streaming, more
than `MaxElapsedTime` after the reset at the entry of `Retry`; the policy
answers `Stop`, `Retry` returns, and the next negotiation call follows with no
sleep between the failure and the call. -/
theorem C6_failure_without_delay :
    ¬ ∀ (pre mid post : List Event) (ok : Bool),
        (Capture.main false exampleT lateFailure).2 =
          pre ++ .ffmpeg false :: (mid ++ .negotiate ok :: post) →
        (∀ e ∈ mid, e.isNegotiate = false) → ∃ d, Event.sleep d ∈ mid := by
  intro h
  have h1 := h [.reset, .negotiate true, .startExtender]
    [.cancel, .nextBackOff (500 * Millisecond) none, .reset]
    [.startExtender, .ffmpeg true, .cancel] true (by decide) (by decide)
  simp at h1

/-- C6 (amended): after every failed attempt the policy is consulted (right
after a failed negotiation, and right after the deferred `cxl()` when `ffmpeg`
failed); when it answers a delay `d` the supervisor sleeps `d` before the next
negotiation call; when it answers `Stop` no sleep happens: the next action, if
any, is the reset of a new `Retry` call followed by the negotiation call.  The
answer is `Stop` exactly when the time since the last reset plus the drawn
delay exceeds `MaxElapsedTime` (15 minutes). -/
theorem C6_backoff_unless_stop (once : Bool) (t0 : Time) (env : List Attempt) :
    (∀ pre post, (Capture.main once t0 env).2 = pre ++ .negotiate false :: post →
      ∃ cur ans r, post = .nextBackOff cur ans :: r) ∧
    (∀ pre post, (Capture.main once t0 env).2 = pre ++ .ffmpeg false :: post →
      ∃ cur ans r, post = .cancel :: .nextBackOff cur ans :: r) ∧
    (∀ pre cur d post, (Capture.main once t0 env).2 = pre ++ .nextBackOff cur (some d) :: post →
      ∃ r, post = .sleep d :: r ∧ (r = [] ∨ ∃ ok r1, r = .negotiate ok :: r1)) ∧
    (∀ pre cur post, (Capture.main once t0 env).2 = pre ++ .nextBackOff cur none :: post →
      post = [] ∨ ∃ ok r, post = .reset :: .negotiate ok :: r) ∧
    (∀ (b : ExponentialBackOff) (now : Time) (rnd : Duration),
      (b.NextBackOff now rnd).1 =
        if now.ns - b.startTime.ns + rnd > DefaultMaxElapsedTime then none else some rnd) :=
  ⟨fun pre post h => suffix_follows once _ env _ post ⟨pre, h.symm⟩,
   fun pre post h => suffix_follows once _ env _ post ⟨pre, h.symm⟩,
   fun pre _ _ post h => suffix_follows once _ env _ post ⟨pre, h.symm⟩,
   fun pre _ post h => suffix_follows once _ env _ post ⟨pre, h.symm⟩,
   NextBackOff_answer⟩

theorem C6_backoff_unless_stop_witness :
    (Capture.main false exampleT (laterFailure :: lateFailure)).2 =
        [.reset, .negotiate false] ++
          .nextBackOff (500 * Millisecond) (some (300 * Millisecond)) ::
            [.sleep (300 * Millisecond), .negotiate true, .startExtender, .ffmpeg false,
              .cancel, .nextBackOff (750 * Millisecond) none, .reset, .negotiate true,
              .startExtender, .ffmpeg true, .cancel] ∧
      ∃ r, [.sleep (300 * Millisecond), .negotiate true, .startExtender, .ffmpeg false,
              .cancel, .nextBackOff (750 * Millisecond) none, .reset, .negotiate true,
              .startExtender, .ffmpeg true, .cancel] = Event.sleep (300 * Millisecond) :: r ∧
        (r = [] ∨ ∃ ok r1, r = .negotiate ok :: r1) :=
  ⟨by decide,
   (C6_backoff_unless_stop false exampleT (laterFailure :: lateFailure)).2.2.1
      [.reset, .negotiate false] (500 * Millisecond) (300 * Millisecond)
      [.sleep (300 * Millisecond), .negotiate true, .startExtender, .ffmpeg false,
       .cancel, .nextBackOff (750 * Millisecond) none, .reset, .negotiate true,
       .startExtender, .ffmpeg true, .cancel] (by decide)⟩

/-- C7: with `once = false`, over every script of attempts, a successful return
of `ffmpeg` is followed by the deferred `cxl()`, the reset at the entry of the
next `Retry` call and the next negotiation call, with no sleep in between (the
trace ends after `cxl()` only when the script has no further attempt); the loop
never returns, and every scripted attempt is run. -/
theorem C7_clean_exit_restarts (t0 : Time) (env : List Attempt) :
    (∀ pre post, (Capture.main false t0 env).2 = pre ++ .ffmpeg true :: post →
      post = [.cancel] ∨ ∃ ok r, post = .cancel :: .reset :: .negotiate ok :: r) ∧
    (Capture.main false t0 env).1.halted = false ∧
    (Capture.main false t0 env).2.countP Event.isNegotiate = env.length :=
  ⟨fun pre post h => suffix_follows false _ env _ post ⟨pre, h.symm⟩,
   not_halted_of_repeat _ (final_forever_repeat _ env rfl),
   countP_forever _ env rfl⟩

theorem C7_clean_exit_restarts_witness :
    (Capture.main false exampleT [{ outcome := .success, took := 5, randomized := 0 },
        laterFailure]).2 =
        [.reset, .negotiate true, .startExtender] ++
          .ffmpeg true ::
            [.cancel, .reset, .negotiate false,
              .nextBackOff (500 * Millisecond) (some (300 * Millisecond)),
              .sleep (300 * Millisecond)] ∧
      ([Event.cancel, .reset, .negotiate false,
          .nextBackOff (500 * Millisecond) (some (300 * Millisecond)),
          .sleep (300 * Millisecond)] = [.cancel] ∨
        ∃ ok r, [Event.cancel, .reset, .negotiate false,
          .nextBackOff (500 * Millisecond) (some (300 * Millisecond)),
          .sleep (300 * Millisecond)] = .cancel :: .reset :: .negotiate ok :: r) :=
  ⟨by decide,
   (C7_clean_exit_restarts exampleT [{ outcome := .success, took := 5, randomized := 0 },
        laterFailure]).1
      [.reset, .negotiate true, .startExtender]
      [.cancel, .reset, .negotiate false,
        .nextBackOff (500 * Millisecond) (some (300 * Millisecond)),
        .sleep (300 * Millisecond)] (by decide)⟩

/-- C8 (as stated, refuted): after two failures and a success the policy holds
`currentInterval = 1125ms`, the state the failure streak left; the failure that
comes next is nevertheless delayed from `currentInterval = 500ms`, the initial
interval, because the new `Retry` call resets the policy first. -/
theorem C8_later_failure_starts_afresh :
    (Capture.main false exampleT streakThenSuccess).1.b.currentInterval = 1125 * Millisecond ∧
    (step false (Capture.main false exampleT streakThenSuccess).1 laterFailure).2 =
      [.reset, .negotiate false,
        .nextBackOff (500 * Millisecond) (some (300 * Millisecond)),
        .sleep (300 * Millisecond)] ∧
    (Capture.main false exampleT (streakThenSuccess ++ [laterFailure])).2 =
      [.reset, .negotiate false,
        .nextBackOff (500 * Millisecond) (some (400 * Millisecond)),
        .sleep (400 * Millisecond), .negotiate false,
        .nextBackOff (750 * Millisecond) (some (700 * Millisecond)),
        .sleep (700 * Millisecond), .negotiate true, .startExtender, .ffmpeg true, .cancel,
        .reset, .negotiate false,
        .nextBackOff (500 * Millisecond) (some (300 * Millisecond)),
        .sleep (300 * Millisecond)] := by
  decide

/-- C8 (amended): whatever happened before, the first consultation of the policy
after a successful return of `ffmpeg` finds `currentInterval` equal to the
initial interval of 500ms. -/
theorem C8_reset_on_every_retry (once : Bool) (t0 : Time) (env : List Attempt)
    (pre post : List Event)
    (h : (Capture.main once t0 env).2 = pre ++ .ffmpeg true :: post) :
    firstInterval post = none ∨ firstInterval post = some DefaultInitialInterval :=
  suffix_success_interval once _ env post ⟨pre, h.symm⟩

theorem C8_reset_on_every_retry_witness :
    (Capture.main false exampleT (streakThenSuccess ++ [laterFailure])).2 =
        [.reset, .negotiate false,
          .nextBackOff (500 * Millisecond) (some (400 * Millisecond)),
          .sleep (400 * Millisecond), .negotiate false,
          .nextBackOff (750 * Millisecond) (some (700 * Millisecond)),
          .sleep (700 * Millisecond), .negotiate true, .startExtender] ++
          .ffmpeg true ::
            [.cancel, .reset, .negotiate false,
              .nextBackOff (500 * Millisecond) (some (300 * Millisecond)),
              .sleep (300 * Millisecond)] ∧
      (firstInterval [.cancel, .reset, .negotiate false,
          .nextBackOff (500 * Millisecond) (some (300 * Millisecond)),
          .sleep (300 * Millisecond)] = none ∨
        firstInterval [.cancel, .reset, .negotiate false,
          .nextBackOff (500 * Millisecond) (some (300 * Millisecond)),
          .sleep (300 * Millisecond)] = some DefaultInitialInterval) :=
  ⟨by decide,
   C8_reset_on_every_retry false exampleT (streakThenSuccess ++ [laterFailure])
      [.reset, .negotiate false,
        .nextBackOff (500 * Millisecond) (some (400 * Millisecond)),
        .sleep (400 * Millisecond), .negotiate false,
        .nextBackOff (750 * Millisecond) (some (700 * Millisecond)),
        .sleep (700 * Millisecond), .negotiate true, .startExtender]
      [.cancel, .reset, .negotiate false,
        .nextBackOff (500 * Millisecond) (some (300 * Millisecond)),
        .sleep (300 * Millisecond)] (by decide)⟩

theorem last_eq_of_append_singleton {α : Type} {l1 l2 : List α} {a b : α}
    (h : l1 ++ [a] = l2 ++ [b]) : a = b := by
  have h1 := (List.append_inj' h rfl).2
  simpa using h1

theorem negotiate_before_startExtender (once : Bool) (t0 : Time) (env : List Attempt)
    (pre post : List Event)
    (h : (Capture.main once t0 env).2 = pre ++ .startExtender :: post) :
    ∃ pre1, pre = pre1 ++ [.negotiate true] := by
  rcases List.eq_nil_or_concat pre with hp | ⟨p1, e, hp⟩
  · subst hp
    rcases main_trace_head once t0 env with h0 | ⟨ok, rest, h0⟩ <;>
      rw [h0] at h <;> simp at h
  · rw [List.concat_eq_append] at hp
    subst hp
    have hs : (e :: .startExtender :: post) <:+ trace once (Supervisor.init t0) env :=
      ⟨p1, by simpa [Capture.main] using h.symm⟩
    have he := before_startExtender e post (suffix_follows once _ env e _ hs)
    exact ⟨p1, by rw [he]⟩

/-- C9: in every run of the supervisor loop, (1) an `Extender` is started only
right after a negotiation call that succeeded; (2) two starts of an `Extender`
are separated by a negotiation call, so no attempt starts two; (3) each start
is followed by the return of `ffmpeg`, with or without error, and then at once
by `cxl()`, before any other action; (4) at every negotiation call the number
of `Extender` scopes started so far equals the number of `cxl()` calls so
far. -/
theorem C9_extender_scoping (once : Bool) (t0 : Time) (env : List Attempt) :
    (∀ pre post, (Capture.main once t0 env).2 = pre ++ .startExtender :: post →
      ∃ pre1, pre = pre1 ++ [.negotiate true]) ∧
    (∀ pre mid post,
      (Capture.main once t0 env).2 = pre ++ .startExtender :: (mid ++ .startExtender :: post) →
      Event.negotiate true ∈ mid) ∧
    (∀ pre post, (Capture.main once t0 env).2 = pre ++ .startExtender :: post →
      ∃ ok r, post = .ffmpeg ok :: .cancel :: r) ∧
    (∀ pre ok post, (Capture.main once t0 env).2 = pre ++ .negotiate ok :: post →
      pre.count .startExtender = pre.count .cancel) := by
  refine ⟨negotiate_before_startExtender once t0 env, ?_, ?_, ?_⟩
  · intro pre mid post h
    have h1 : (Capture.main once t0 env).2 =
        (pre ++ .startExtender :: mid) ++ .startExtender :: post := by
      simpa using h
    obtain ⟨p1, hp⟩ := negotiate_before_startExtender once t0 env _ _ h1
    rcases List.eq_nil_or_concat mid with hm | ⟨m1, x, hm⟩
    · subst hm
      have := last_eq_of_append_singleton hp
      simp at this
    · rw [List.concat_eq_append] at hm
      subst hm
      have hp1 : (pre ++ .startExtender :: m1) ++ [x] = p1 ++ [.negotiate true] := by
        simpa using hp
      have := last_eq_of_append_singleton hp1
      simp [this]
  · intro pre post h
    exact suffix_follows once _ env _ post ⟨pre, h.symm⟩
  · intro pre ok post h
    exact scopes_closed_before_negotiate once _ env pre post ok h

theorem C9_extender_scoping_witness :
    (Capture.main false exampleT lateFailure).2 =
        [.reset, .negotiate true, .startExtender, .ffmpeg false, .cancel,
          .nextBackOff (500 * Millisecond) none, .reset] ++
          .negotiate true :: [.startExtender, .ffmpeg true, .cancel] ∧
      List.count Event.startExtender
          [.reset, .negotiate true, .startExtender, .ffmpeg false, .cancel,
            .nextBackOff (500 * Millisecond) none, .reset] =
        List.count Event.cancel
          [.reset, .negotiate true, .startExtender, .ffmpeg false, .cancel,
            .nextBackOff (500 * Millisecond) none, .reset] :=
  ⟨by decide,
   (C9_extender_scoping false exampleT lateFailure).2.2.2
      [.reset, .negotiate true, .startExtender, .ffmpeg false, .cancel,
        .nextBackOff (500 * Millisecond) none, .reset]
      true [.startExtender, .ffmpeg true, .cancel] (by decide)⟩

/-! ## Theorems: the list tool -/

theorem devicesLoop_skip (d : Device) (ds : Traits) (cls : CameraLiveStreamTrait)
    (rest : List Device) (hd : d.Traits = some ds) (hc : ds.CameraLiveStream = some cls)
    (hv : cls.VideoCodecs = []) :
    devicesLoop (d :: rest) = devicesLoop rest := by
  simp [devicesLoop, hd, hc, hv]

theorem devicesLoop_print (d : Device) (ds : Traits) (cls : CameraLiveStreamTrait)
    (rest : List Device) (hd : d.Traits = some ds) (hc : ds.CameraLiveStream = some cls)
    (hv : cls.VideoCodecs ≠ []) :
    devicesLoop (d :: rest) = (line d ds :: (devicesLoop rest).1, (devicesLoop rest).2) := by
  simp [devicesLoop, hd, hc, hv]

theorem devicesLoop_no_trait (d : Device) (ds : Traits) (rest : List Device)
    (hd : d.Traits = some ds) (hc : ds.CameraLiveStream = none) :
    devicesLoop (d :: rest) = ([], .panicked) := by
  simp [devicesLoop, hd, hc]

/-- C10 (the code at the failing input): the listing returns a thermostat, whose
traits carry no `CameraLiveStream` trait, and then a camera.  The tool panics
at the thermostat and prints nothing, not even the line of the camera; with the
camera alone it prints `Porch(Door): enterprises/p/devices/camera`. -/
theorem C10_panics_on_missing_trait :
    ListCmd.main [thermostat, camera] = ([], .panicked) ∧
    ListCmd.main [camera] = (["Porch(Door): enterprises/p/devices/camera\n"], .returned) := by
  constructor <;> rfl

end Nestsdm
